import Mathlib

/-!
# Session loops of the chess server

A shallow embedding of `PlayerLoop` and `SpectateLoop` from
`src/chess_server/chess_server.go`.

A session is run against

* the result of the initial receive on the inbound channel,
* the list of events that the `select` statement of the loop picks, in the
  order in which it picks them, and
* a controller, given as transition functions over an arbitrary state.

A run yields the chronological list of observable effects (controller
calls, log records, sends on the output channel), the way the function
ended, the events it did not consume and the final controller state.

Conventions:

* every interleaving of the two channels is one list of events, so a
  statement over all lists of events is a statement over all interleavings;
* a run whose events are used up while the loop waits in `select` ends as
  `Outcome.blocked`: the session is then in its Active state;
* a single-value type assertion on a payload of another dynamic type ends
  the run as `Outcome.panicked`; deferred calls run on that path too;
* a send on the output channel is taken to complete (the writer receives);
* a session whose first receive never completes has no effect and is not
  represented.
-/

namespace ChessServer

/-! ## Data model -/

/-- Modelled from the spec: the payload types are declared outside
`chess_server.go`; the fields are the ones the loops read or write
(`GameId`, `PlayerId`, both printed with `%d`). -/
structure GamePlayerJoinedUpdate where
  GameId : Int
  PlayerId : Int
deriving DecidableEq, Repr

/-- Modelled from the spec: payload built by the deferred call of
`PlayerLoop`. -/
structure GamePlayerLeftUpdate where
  GameId : Int
  PlayerId : Int
deriving DecidableEq, Repr

/-- Modelled from the spec: first message of a spectator session. -/
structure GameSpectatorJoinUpdate where
  GameId : Int
deriving DecidableEq, Repr

/-- Modelled from the spec: payload built by the deferred call of
`SpectateLoop`. -/
structure GameSpectatorLeftUpdate where
  GameId : Int
  SpectatorId : Int
deriving DecidableEq, Repr

/-- Modelled from the spec: a move of a player (`Move` is printed with
`%s`). -/
structure GameMoveUpdate where
  Move : String
deriving DecidableEq, Repr

/-- Modelled from the spec: the terminal update of the controller; its
fields are not read by the loops and are kept as one string. -/
structure GameResultUpdate where
  Result : String
deriving DecidableEq, Repr

/-- Modelled from the spec: the Go interface `GameUpdate`, as the closed sum
of its dynamic types, with `nil` for the zero value of the interface. -/
inductive GameUpdate where
  | nil
  | PlayerJoined (u : GamePlayerJoinedUpdate)
  | PlayerLeft (u : GamePlayerLeftUpdate)
  | SpectatorJoin (u : GameSpectatorJoinUpdate)
  | SpectatorLeft (u : GameSpectatorLeftUpdate)
  | Move (u : GameMoveUpdate)
  | Result (u : GameResultUpdate)
deriving DecidableEq, Repr

/-- The channel element `struct { GameUpdate; string }`: a payload and its
string tag. The two are independent fields. -/
structure Envelope where
  GameUpdate : GameUpdate
  string : String
deriving DecidableEq, Repr

/-- The zero value of the channel element, which a receive from a closed
channel yields. -/
def Envelope.zero : Envelope := ⟨.nil, ""⟩

/-- The result of `v, ok := <-wsIn`: a message (`ok = true`) or the report
that the channel is closed (`ok = false`, `v` the zero value). -/
inductive Recv where
  | msg (clientUpdate : Envelope)
  | closed
deriving DecidableEq, Repr

/-- The value part of a receive. -/
def Recv.val : Recv → Envelope
  | .msg m => m
  | .closed => Envelope.zero

/-- One iteration of `select`: the case that fired and what it received. -/
inductive Event where
  | update (update : Envelope)
  | client (r : Recv)
deriving DecidableEq, Repr

/-- An argument of a log call; the rendering of the format string is not
modelled. -/
inductive Arg where
  | int (i : Int)
  | str (s : String)
  | update (u : GameUpdate)
  | err (e : String)
deriving DecidableEq, Repr

/-- The observable effects of a session, in the order of execution. A call
whose result the loop reads is recorded with that result (`err = none` is
the Go `nil` error). -/
inductive Effect where
  | logError (format : String) (args : List Arg)
  | logInfo (format : String) (args : List Arg)
  | PlayerJoin (u : GamePlayerJoinedUpdate) (err : Option String)
  | MakeMove (u : GameMoveUpdate) (err : Option String)
  | PlayerLeave (u : GamePlayerLeftUpdate)
  | SpectatorJoin (u : GameSpectatorJoinUpdate) (spectator_id : Int) (err : Option String)
  | SpectatorLeave (u : GameSpectatorLeftUpdate)
  | wsOut (u : GameUpdate)
deriving DecidableEq, Repr

/-- Modelled from the spec: the controller `ChessGamesController` is
declared outside `chess_server.go`; it is a parameter of the loops, given by
its five calls over a state `σ`. An error result is `some msg`, the Go `nil`
error is `none`. The update channel that a join returns is not part of the
result: what it delivers arrives as `Event.update`. -/
structure ChessGamesController (σ : Type) where
  PlayerJoin : σ → GamePlayerJoinedUpdate → Option String × σ
  MakeMove : σ → GameMoveUpdate → Option String × σ
  PlayerLeave : σ → GamePlayerLeftUpdate → σ
  SpectatorJoin : σ → GameSpectatorJoinUpdate → (Int × Option String) × σ
  SpectatorLeave : σ → GameSpectatorLeftUpdate → σ

/-- How a run over a finite list of events ends: the function returned, a
type assertion failed, or the events ran out while the loop was waiting. -/
inductive Outcome where
  | returned
  | panicked
  | blocked
deriving DecidableEq, Repr

/-- The result of running a loop. -/
structure Run (σ : Type) where
  trace : List Effect
  outcome : Outcome
  rest : List Event
  ctl : σ

/-- Put effects that happened earlier in front of a run. -/
def Run.emit {σ : Type} (pre : List Effect) (r : Run σ) : Run σ :=
  { r with trace := pre ++ r.trace }

/-- A deferred controller call: it runs when the function returns and when
it unwinds from a failed type assertion, not while the loop still waits. -/
def Run.deferred {σ : Type} (call : Effect) (upd : σ → σ) (r : Run σ) : Run σ :=
  match r.outcome with
  | .blocked => r
  | _ => { r with trace := r.trace ++ [call], ctl := upd r.ctl }

/-! ## The loops -/

/-- The `for { select { ... } }` of `PlayerLoop` (lines 61-86). -/
def PlayerLoopActive {σ : Type} (c : ChessGamesController σ) (playerId : Int) :
    σ → List Event → Run σ
  | s, [] => ⟨[], .blocked, [], s⟩
  | s, .update update :: es =>
    if update.string = "result_update" then
      ⟨[.wsOut update.GameUpdate], .returned, es, s⟩
    else
      (PlayerLoopActive c playerId s es).emit [.wsOut update.GameUpdate]
  | s, .client .closed :: es =>
    ⟨[.logError "\x7b\"reason\": \"Failed to receive move from client\"\x7d" []],
      .returned, es, s⟩
  | s, .client (.msg clientUpdate) :: es =>
    if clientUpdate.string = "EOF" then
      ⟨[], .returned, es, s⟩
    else if clientUpdate.string ≠ "move_update" then
      ⟨[.logError "Expected move update, instead received %s"
          [.update clientUpdate.GameUpdate]], .returned, es, s⟩
    else
      match clientUpdate.GameUpdate with
      | .Move moveUpdate =>
        match c.MakeMove s moveUpdate with
        | (some err, s1) =>
          ⟨[.logInfo "Player %d entered move %s" [.int playerId, .str moveUpdate.Move],
            .MakeMove moveUpdate (some err),
            .logError "Invalid move %s" [.err err]], .returned, es, s1⟩
        | (none, s1) =>
          (PlayerLoopActive c playerId s1 es).emit
            [.logInfo "Player %d entered move %s" [.int playerId, .str moveUpdate.Move],
             .MakeMove moveUpdate none]
      | _ => ⟨[], .panicked, es, s⟩

/-- The function `PlayerLoop` (lines 29-87): `first` is the result of the
receive of line 38, `events` what the `select` of line 62 picks. -/
def PlayerLoop {σ : Type} (c : ChessGamesController σ) (s : σ) (first : Recv)
    (events : List Event) : Run σ :=
  match first with
  | .closed => ⟨[.logError "Failed to receive join update" []], .returned, events, s⟩
  | .msg clientUpdate =>
    if clientUpdate.string ≠ "player_joined_update" then
      ⟨[.logError "Expected join update, instead received %s"
          [.update clientUpdate.GameUpdate]], .returned, events, s⟩
    else
      match clientUpdate.GameUpdate with
      | .PlayerJoined joinMsg =>
        match c.PlayerJoin s joinMsg with
        | (some err, s1) =>
          ⟨[.PlayerJoin joinMsg (some err),
            .logError "Could not join game %d as player %d: %s"
              [.int joinMsg.GameId, .int joinMsg.PlayerId, .err err]],
            .returned, events, s1⟩
        | (none, s1) =>
          (Run.deferred (.PlayerLeave ⟨joinMsg.GameId, joinMsg.PlayerId⟩)
              (fun t => c.PlayerLeave t ⟨joinMsg.GameId, joinMsg.PlayerId⟩)
              (PlayerLoopActive c joinMsg.PlayerId s1 events)).emit
            [.PlayerJoin joinMsg none,
             .logInfo "Player %d joined game %d" [.int joinMsg.PlayerId, .int joinMsg.GameId]]
      | _ => ⟨[], .panicked, events, s⟩

/-- The `for { select { ... } }` of `SpectateLoop` (lines 115-128). The
receive of line 122 does not test `ok`: a closed channel is seen as the zero
value. -/
def SpectateLoopActive {σ : Type} (s : σ) : List Event → Run σ
  | [] => ⟨[], .blocked, [], s⟩
  | .update update :: es =>
    if update.string = "result_update" then
      ⟨[.wsOut update.GameUpdate], .returned, es, s⟩
    else
      (SpectateLoopActive s es).emit [.wsOut update.GameUpdate]
  | .client r :: es =>
    if r.val.string = "EOF" then
      ⟨[], .returned, es, s⟩
    else
      SpectateLoopActive s es

/-- The function `SpectateLoop` (lines 89-129). -/
def SpectateLoop {σ : Type} (c : ChessGamesController σ) (s : σ) (first : Recv)
    (events : List Event) : Run σ :=
  match first with
  | .closed =>
    ⟨[.logError "Failed to receive spectator join update" []], .returned, events, s⟩
  | .msg clientUpdate =>
    if clientUpdate.string ≠ "spectator_join_update" then
      ⟨[.logError "Expected Spectator join update, instead received %s"
          [.update clientUpdate.GameUpdate]], .returned, events, s⟩
    else
      match clientUpdate.GameUpdate with
      | .SpectatorJoin joinMsg =>
        match c.SpectatorJoin s joinMsg with
        | ((spectator_id, some err), s1) =>
          ⟨[.SpectatorJoin joinMsg spectator_id (some err),
            .logError "Could not spectate game: %s" [.err err]],
            .returned, events, s1⟩
        | ((spectator_id, none), s1) =>
          (Run.deferred (.SpectatorLeave ⟨joinMsg.GameId, spectator_id⟩)
              (fun t => c.SpectatorLeave t ⟨joinMsg.GameId, spectator_id⟩)
              (SpectateLoopActive s1 events)).emit
            [.SpectatorJoin joinMsg spectator_id none,
             .logInfo "Spectator %d is now spectating game %d"
               [.int spectator_id, .int joinMsg.GameId]]
      | _ => ⟨[], .panicked, events, s⟩

/-! ## Projections of a trace -/

/-- The arguments of the `MakeMove` calls of a trace, in order. -/
def movesMade : List Effect → List GameMoveUpdate
  | [] => []
  | .MakeMove u _ :: t => u :: movesMade t
  | _ :: t => movesMade t

/-- The values sent on the output channel, in order. -/
def sent : List Effect → List GameUpdate
  | [] => []
  | .wsOut u :: t => u :: sent t
  | _ :: t => sent t

/-- True on the calls to the controller. -/
def Effect.isCall : Effect → Bool
  | .PlayerJoin _ _ | .MakeMove _ _ | .PlayerLeave _ | .SpectatorJoin _ _ _
  | .SpectatorLeave _ => true
  | _ => false

/-- The controller calls of a trace, in order. -/
def calls (t : List Effect) : List Effect := t.filter Effect.isCall

/-- True on `PlayerLeave` calls. -/
def Effect.isPlayerLeave : Effect → Bool
  | .PlayerLeave _ => true
  | _ => false

/-- True on `SpectatorLeave` calls. -/
def Effect.isSpectatorLeave : Effect → Bool
  | .SpectatorLeave _ => true
  | _ => false

/-- True on error log records. -/
def Effect.isLogError : Effect → Bool
  | .logError _ _ => true
  | _ => false

/-- True on the calls `PlayerJoin`, `SpectatorJoin` and `MakeMove`. -/
def Effect.isDomainCall : Effect → Bool
  | .PlayerJoin _ _ | .SpectatorJoin _ _ _ | .MakeMove _ _ => true
  | _ => false

/-- True on a `PlayerJoin` call that returned no error. -/
def Effect.isPlayerJoinOk : Effect → Bool
  | .PlayerJoin _ none => true
  | _ => false

/-- True on the effects that the `for`/`select` loops themselves produce:
log records, sends on the output channel and `MakeMove` calls. -/
def Effect.isLoopEffect : Effect → Bool
  | .logError _ _ | .logInfo _ _ | .MakeMove _ _ | .wsOut _ => true
  | _ => false

/-- The events of `events` that a run consumed, given what it left. -/
def consumed (events rest : List Event) : List Event :=
  events.take (events.length - rest.length)

/-- The payloads of the Move messages among received events: inbound
messages tagged `move_update` that carry a move. -/
def movesReceived : List Event → List GameMoveUpdate
  | [] => []
  | .client (.msg ⟨.Move u, tag⟩) :: t =>
    if tag = "move_update" then u :: movesReceived t else movesReceived t
  | _ :: t => movesReceived t

/-- The payloads of the controller updates among received events. -/
def updatesReceived : List Event → List GameUpdate
  | [] => []
  | .update u :: t => u.GameUpdate :: updatesReceived t
  | _ :: t => updatesReceived t

/-- True when the dynamic type of the payload is `GamePlayerJoinedUpdate`. -/
def GameUpdate.isPlayerJoined : GameUpdate → Bool
  | .PlayerJoined _ => true
  | _ => false

/-- True when the dynamic type of the payload is `GameSpectatorJoinUpdate`. -/
def GameUpdate.isSpectatorJoin : GameUpdate → Bool
  | .SpectatorJoin _ => true
  | _ => false

/-- True when the dynamic type of the payload is `GameMoveUpdate`. -/
def GameUpdate.isMove : GameUpdate → Bool
  | .Move _ => true
  | _ => false

/-- True on the events that do not end a spectator session by themselves:
a receive from the closed inbound channel, and an update that is not tagged
`result_update`. -/
def Event.isClosedOrPlainUpdate : Event → Bool
  | .client .closed => true
  | .client (.msg _) => false
  | .update u => decide (u.string ≠ "result_update")

/-! ## Examples of controllers and messages -/

/-- The join message of scenario A: game 1, player 7. -/
def joinAs7 : Recv := .msg ⟨.PlayerJoined ⟨1, 7⟩, "player_joined_update"⟩

/-- The join message of scenario B: spectate game 1. -/
def spectate1 : Recv := .msg ⟨.SpectatorJoin ⟨1⟩, "spectator_join_update"⟩

/-- The move of scenario A. -/
def moveE2E4 : Envelope := ⟨.Move ⟨"e2e4"⟩, "move_update"⟩

/-- A result update of the controller. -/
def whiteWins : Envelope := ⟨.Result ⟨"1-0"⟩, "result_update"⟩

/-- A move of the opponent, as the controller reports it. -/
def opponentMove : Envelope := ⟨.Move ⟨"e7e5"⟩, "move_update"⟩

/-- The disconnect sentinel of the reader. -/
def eof : Envelope := ⟨.nil, "EOF"⟩


/-- A controller that accepts every call and hands out spectator id 3; its
state counts the calls. -/
def acceptAll : ChessGamesController Nat where
  PlayerJoin s _ := (none, s + 1)
  MakeMove s _ := (none, s + 1)
  PlayerLeave s _ := s + 1
  SpectatorJoin s _ := ((3, none), s + 1)
  SpectatorLeave s _ := s + 1

/-- A controller that rejects every join and every move. -/
def rejectAll : ChessGamesController Nat where
  PlayerJoin s _ := (some "game full", s)
  MakeMove s _ := (some "illegal move", s)
  PlayerLeave s _ := s
  SpectatorJoin s _ := ((0, some "game not found"), s)
  SpectatorLeave s _ := s

/-- A controller whose games are full: it refuses every player and every
move, and accepts spectators with id 3. -/
def fullGames : ChessGamesController Nat where
  PlayerJoin s _ := (some "game full", s)
  MakeMove s _ := (some "game full", s)
  PlayerLeave s _ := s
  SpectatorJoin s _ := ((3, none), s + 1)
  SpectatorLeave s _ := s + 1

/-- A controller that accepts joins and rejects every move. -/
def rejectMoves : ChessGamesController Nat where
  PlayerJoin s _ := (none, s + 1)
  MakeMove s _ := (some "illegal move", s + 1)
  PlayerLeave s _ := s + 1
  SpectatorJoin s _ := ((3, none), s + 1)
  SpectatorLeave s _ := s + 1

/-! ## Basic facts -/

section Basic

variable {σ : Type}

@[simp] theorem Run.emit_trace (pre : List Effect) (r : Run σ) :
    (r.emit pre).trace = pre ++ r.trace := rfl

@[simp] theorem Run.emit_outcome (pre : List Effect) (r : Run σ) :
    (r.emit pre).outcome = r.outcome := rfl

@[simp] theorem Run.emit_rest (pre : List Effect) (r : Run σ) :
    (r.emit pre).rest = r.rest := rfl

@[simp] theorem Run.emit_ctl (pre : List Effect) (r : Run σ) :
    (r.emit pre).ctl = r.ctl := rfl

theorem Run.emit_emit (a b : List Effect) (r : Run σ) :
    (r.emit b).emit a = r.emit (a ++ b) := by
  simp [Run.emit, List.append_assoc]

theorem Run.emit_nil (r : Run σ) : r.emit [] = r := rfl

theorem Run.deferred_blocked (call : Effect) (upd : σ → σ) (r : Run σ)
    (h : r.outcome = .blocked) : r.deferred call upd = r := by
  simp [Run.deferred, h]

theorem Run.deferred_returned (call : Effect) (upd : σ → σ) (r : Run σ)
    (h : r.outcome = .returned) :
    r.deferred call upd = { r with trace := r.trace ++ [call], ctl := upd r.ctl } := by
  simp [Run.deferred, h]

theorem Run.deferred_panicked (call : Effect) (upd : σ → σ) (r : Run σ)
    (h : r.outcome = .panicked) :
    r.deferred call upd = { r with trace := r.trace ++ [call], ctl := upd r.ctl } := by
  simp [Run.deferred, h]

@[simp] theorem Run.deferred_outcome (call : Effect) (upd : σ → σ) (r : Run σ) :
    (r.deferred call upd).outcome = r.outcome := by
  unfold Run.deferred
  split <;> simp_all

@[simp] theorem Run.deferred_rest (call : Effect) (upd : σ → σ) (r : Run σ) :
    (r.deferred call upd).rest = r.rest := by
  unfold Run.deferred
  split <;> simp_all

theorem Run.deferred_emit (call : Effect) (upd : σ → σ) (pre : List Effect) (r : Run σ) :
    (r.emit pre).deferred call upd = (r.deferred call upd).emit pre := by
  unfold Run.deferred
  cases h : r.outcome <;> simp [Run.emit, h]

/-- Running the player loop over `pre ++ post` when it is still waiting
after `pre`: it goes on with `post` from the state reached. -/
theorem PlayerLoopActive_append (c : ChessGamesController σ) (p : Int)
    (pre post : List Event) (s : σ)
    (h : (PlayerLoopActive c p s pre).outcome = .blocked) :
    PlayerLoopActive c p s (pre ++ post) =
      (PlayerLoopActive c p (PlayerLoopActive c p s pre).ctl post).emit
        (PlayerLoopActive c p s pre).trace := by
  induction pre generalizing s with
  | nil => simp [PlayerLoopActive, Run.emit]
  | cons e es ih =>
    cases e with
    | update u =>
      by_cases hu : u.string = "result_update"
      · simp [PlayerLoopActive, hu] at h
      · simp only [PlayerLoopActive, hu, if_false, Run.emit_outcome, List.cons_append,
          Run.emit_ctl, Run.emit_trace, List.append_eq] at h ⊢
        rw [ih s h, Run.emit_emit]
        rfl
    | client r =>
      cases r with
      | closed => simp [PlayerLoopActive] at h
      | msg m =>
        by_cases h1 : m.string = "EOF"
        · simp [PlayerLoopActive, h1] at h
        · by_cases h2 : m.string = "move_update"
          · obtain ⟨g, tag⟩ := m
            simp only at h1 h2
            subst h2
            cases g with
            | Move mv =>
              simp only [PlayerLoopActive, List.cons_append, List.append_eq] at h ⊢
              rcases hm : c.MakeMove s mv with ⟨_ | err, s1⟩
              · simp only [hm] at h ⊢
                simp only [h1, if_false, ne_eq, not_true_eq_false, Run.emit_outcome,
                  Run.emit_ctl, Run.emit_trace] at h ⊢
                rw [ih s1 h, Run.emit_emit]
              · simp [hm] at h
            | _ => simp [PlayerLoopActive] at h
          · simp [PlayerLoopActive, h1, h2] at h

theorem PlayerLoopActive_effects (c : ChessGamesController σ) (p : Int)
    (es : List Event) (s : σ) :
    ∀ e ∈ (PlayerLoopActive c p s es).trace, e.isLoopEffect = true := by
  induction es generalizing s with
  | nil => simp [PlayerLoopActive]
  | cons e es ih =>
    rcases e with u | (m | _)
    · simp only [PlayerLoopActive]
      split
      · simp [Effect.isLoopEffect]
      · intro e he
        simp only [Run.emit_trace, List.mem_append, List.mem_singleton] at he
        rcases he with rfl | he
        · rfl
        · exact ih s e he
    · simp only [PlayerLoopActive]
      split
      · simp
      · split
        · simp [Effect.isLoopEffect]
        · split
          · split
            · simp [Effect.isLoopEffect]
            · intro e he
              simp only [Run.emit_trace, List.mem_append, List.mem_cons, List.mem_singleton,
                List.not_mem_nil, or_false] at he
              rcases he with (rfl | rfl) | he
              · rfl
              · rfl
              · exact ih _ e he
          · simp
    · simp [PlayerLoopActive, Effect.isLoopEffect]

theorem PlayerLoopActive_blocked_rest (c : ChessGamesController σ) (p : Int)
    (es : List Event) (s : σ) (h : (PlayerLoopActive c p s es).outcome = .blocked) :
    (PlayerLoopActive c p s es).rest = [] := by
  induction es generalizing s with
  | nil => simp [PlayerLoopActive]
  | cons e es ih =>
    rcases e with u | (m | _)
    · simp only [PlayerLoopActive] at h ⊢
      split at h
      · simp at h
      · rename_i hu
        simp only [hu, if_false, Run.emit_rest]
        exact ih s h
    · simp only [PlayerLoopActive] at h ⊢
      split at h
      · simp at h
      · split at h
        · simp at h
        · rename_i h1 h2
          simp only [h1, h2, if_false]
          split at h
          · split at h
            · simp at h
            · rename_i hm
              simp only [hm, Run.emit_rest]
              exact ih _ h
          · simp at h
    · simp [PlayerLoopActive] at h

theorem movesMade_append (a b : List Effect) :
    movesMade (a ++ b) = movesMade a ++ movesMade b := by
  induction a with
  | nil => rfl
  | cons e t ih => cases e <;> simp [movesMade, ih]

theorem sent_append (a b : List Effect) : sent (a ++ b) = sent a ++ sent b := by
  induction a with
  | nil => rfl
  | cons e t ih => cases e <;> simp [sent, ih]

theorem consumed_append (used rest : List Event) : consumed (used ++ rest) rest = used := by
  simp [consumed]

/-- What the player loop consumed is a prefix of the events; the moves it
passed on and the updates it forwarded are those of that prefix. -/
theorem PlayerLoopActive_consumed (c : ChessGamesController σ) (p : Int)
    (es : List Event) (s : σ) :
    ∃ used, es = used ++ (PlayerLoopActive c p s es).rest ∧
      movesMade (PlayerLoopActive c p s es).trace = movesReceived used ∧
      sent (PlayerLoopActive c p s es).trace = updatesReceived used := by
  induction es generalizing s with
  | nil => exact ⟨[], by simp [PlayerLoopActive, movesMade, movesReceived, sent, updatesReceived]⟩
  | cons e es ih =>
    rcases e with u | (m | _)
    · simp only [PlayerLoopActive]
      split
      · exact ⟨[.update u], by simp [movesMade, movesReceived, sent, updatesReceived]⟩
      · obtain ⟨used, h1, h2, h3⟩ := ih s
        refine ⟨.update u :: used, ?_, ?_, ?_⟩
        · simpa using h1
        · simpa [movesMade, movesReceived] using h2
        · simpa [sent, updatesReceived] using h3
    · obtain ⟨g, tag⟩ := m
      simp only [PlayerLoopActive]
      split
      · rename_i h1
        refine ⟨[.client (.msg ⟨g, tag⟩)], by simp, ?_, by simp [sent, updatesReceived]⟩
        have : tag ≠ "move_update" := by
          rw [h1]
          decide
        cases g <;> simp [movesMade, movesReceived, this]
      · split
        · rename_i h1 h2
          refine ⟨[.client (.msg ⟨g, tag⟩)], by simp, ?_, by simp [sent, updatesReceived]⟩
          have : tag ≠ "move_update" := by simpa using h2
          cases g <;> simp [movesMade, movesReceived, this]
        · rename_i h1 h2
          have ht : tag = "move_update" := by simpa using h2
          cases g with
          | Move mv =>
            simp only
            split
            · exact ⟨[.client (.msg ⟨.Move mv, tag⟩)], by
                simp [movesMade, movesReceived, sent, updatesReceived, ht]⟩
            · rename_i s1 _
              obtain ⟨used, h1, h2, h3⟩ := ih s1
              refine ⟨.client (.msg ⟨.Move mv, tag⟩) :: used, ?_, ?_, ?_⟩
              · simpa using h1
              · simpa [movesMade, movesReceived, ht] using h2
              · simpa [sent, updatesReceived] using h3
          | _ => exact ⟨[_], rfl, rfl, rfl⟩
    · exact ⟨[.client .closed], by
        simp [PlayerLoopActive, movesMade, movesReceived, sent, updatesReceived]⟩

theorem loopEffect_not_playerLeave {e : Effect} (h : e.isLoopEffect = true) :
    e.isPlayerLeave = false := by
  cases e <;> simp_all [Effect.isLoopEffect, Effect.isPlayerLeave]

theorem loopEffect_not_playerJoin {e : Effect} (h : e.isLoopEffect = true)
    (j : GamePlayerJoinedUpdate) (err : Option String) : e ≠ .PlayerJoin j err := by
  cases e <;> simp_all [Effect.isLoopEffect]

theorem calls_append (a b : List Effect) : calls (a ++ b) = calls a ++ calls b := by
  simp [calls]

/-- The unfolding of `PlayerLoop` after a join that the controller accepts. -/
theorem PlayerLoop_joined (c : ChessGamesController σ) (s s1 : σ)
    (j : GamePlayerJoinedUpdate) (events : List Event)
    (hj : c.PlayerJoin s j = (none, s1)) :
    PlayerLoop c s (.msg ⟨.PlayerJoined j, "player_joined_update"⟩) events =
      (Run.deferred (.PlayerLeave ⟨j.GameId, j.PlayerId⟩)
          (fun t => c.PlayerLeave t ⟨j.GameId, j.PlayerId⟩)
          (PlayerLoopActive c j.PlayerId s1 events)).emit
        [.PlayerJoin j none,
         .logInfo "Player %d joined game %d" [.int j.PlayerId, .int j.GameId]] := by
  simp [PlayerLoop, hj]

/-- Without an accepted join, `PlayerLoop` ends at once: its trace holds at
most the rejected join and one error record, and no event is consumed. -/
theorem PlayerLoop_not_joined (c : ChessGamesController σ) (s : σ) (first : Recv)
    (events : List Event)
    (h : ¬ ∃ j s1, first = .msg ⟨.PlayerJoined j, "player_joined_update"⟩ ∧
      c.PlayerJoin s j = (none, s1)) :
    (PlayerLoop c s first events).rest = events ∧
    (PlayerLoop c s first events).outcome ≠ .blocked ∧
    ∀ e ∈ (PlayerLoop c s first events).trace,
      (∃ f a, e = .logError f a) ∨ (∃ j err, e = .PlayerJoin j (some err)) := by
  rcases first with ⟨g, tag⟩ | _
  · by_cases ht : tag = "player_joined_update"
    · subst ht
      cases g with
      | PlayerJoined j =>
        rcases hj : c.PlayerJoin s j with ⟨_ | err, s1⟩
        · exact absurd ⟨j, s1, rfl, hj⟩ h
        · simp [PlayerLoop, hj]
      | _ => simp [PlayerLoop]
    · simp [PlayerLoop, ht]
  · simp [PlayerLoop]

/-- A run of `PlayerLoop` that is still waiting has joined. -/
theorem PlayerLoop_blocked_joined (c : ChessGamesController σ) (s : σ) (first : Recv)
    (events : List Event) (h : (PlayerLoop c s first events).outcome = .blocked) :
    ∃ j s1, first = .msg ⟨.PlayerJoined j, "player_joined_update"⟩ ∧
      c.PlayerJoin s j = (none, s1) := by
  by_contra hn
  exact (PlayerLoop_not_joined c s first events hn).2.1 h

/-- Running `PlayerLoop` over `pre ++ post` when it is in the Active state
after `pre`: the loop goes on with `post` from the controller state reached,
under the same deferred `PlayerLeave`. -/
theorem PlayerLoop_append (c : ChessGamesController σ) (s s1 : σ)
    (j : GamePlayerJoinedUpdate) (pre post : List Event)
    (hj : c.PlayerJoin s j = (none, s1))
    (h : (PlayerLoop c s (.msg ⟨.PlayerJoined j, "player_joined_update"⟩) pre).outcome
      = .blocked) :
    PlayerLoop c s (.msg ⟨.PlayerJoined j, "player_joined_update"⟩) (pre ++ post) =
      (Run.deferred (.PlayerLeave ⟨j.GameId, j.PlayerId⟩)
          (fun t => c.PlayerLeave t ⟨j.GameId, j.PlayerId⟩)
          (PlayerLoopActive c j.PlayerId
            (PlayerLoop c s (.msg ⟨.PlayerJoined j, "player_joined_update"⟩) pre).ctl
            post)).emit
        (PlayerLoop c s (.msg ⟨.PlayerJoined j, "player_joined_update"⟩) pre).trace := by
  rw [PlayerLoop_joined c s s1 j _ hj] at h ⊢
  rw [PlayerLoop_joined c s s1 j _ hj]
  simp only [Run.emit_outcome, Run.deferred_outcome] at h
  rw [PlayerLoopActive_append c j.PlayerId pre post s1 h, Run.deferred_emit, Run.emit_emit,
    Run.deferred_blocked _ _ _ h]
  rfl

theorem movesMade_deferred_leave (l : GamePlayerLeftUpdate) (upd : σ → σ) (r : Run σ) :
    movesMade (r.deferred (.PlayerLeave l) upd).trace = movesMade r.trace := by
  unfold Run.deferred
  split
  · rfl
  · simp [movesMade_append, movesMade]

theorem sent_deferred_leave (l : GamePlayerLeftUpdate) (upd : σ → σ) (r : Run σ) :
    sent (r.deferred (.PlayerLeave l) upd).trace = sent r.trace := by
  unfold Run.deferred
  split
  · rfl
  · simp [sent_append, sent]

/-- Running the spectator loop over `pre ++ post` when it is still waiting
after `pre`. -/
theorem SpectateLoopActive_append (pre post : List Event) (s : σ)
    (h : (SpectateLoopActive s pre).outcome = .blocked) :
    SpectateLoopActive s (pre ++ post) =
      (SpectateLoopActive s post).emit (SpectateLoopActive s pre).trace := by
  induction pre with
  | nil => simp [SpectateLoopActive, Run.emit]
  | cons e es ih =>
    rcases e with u | r
    · by_cases hu : u.string = "result_update"
      · simp [SpectateLoopActive, hu] at h
      · simp only [SpectateLoopActive, hu, if_false, Run.emit_outcome, List.cons_append,
          Run.emit_trace, List.append_eq] at h ⊢
        rw [ih h, Run.emit_emit]
        rfl
    · by_cases hr : r.val.string = "EOF"
      · simp [SpectateLoopActive, hr] at h
      · simp only [SpectateLoopActive, hr, if_false, List.cons_append, List.append_eq] at h ⊢
        exact ih h

theorem SpectateLoopActive_ctl (es : List Event) (s : σ) :
    (SpectateLoopActive s es).ctl = s := by
  induction es with
  | nil => rfl
  | cons e es ih =>
    rcases e with u | r
    · simp only [SpectateLoopActive]
      split <;> simp [ih]
    · simp only [SpectateLoopActive]
      split <;> simp [ih]

/-- The spectator loop only sends on the output channel. -/
theorem SpectateLoopActive_effects (es : List Event) (s : σ) :
    ∀ e ∈ (SpectateLoopActive s es).trace, ∃ u, e = .wsOut u := by
  induction es with
  | nil => simp [SpectateLoopActive]
  | cons e es ih =>
    rcases e with u | r
    · simp only [SpectateLoopActive]
      split
      · simp
      · intro e he
        simp only [Run.emit_trace, List.mem_append, List.mem_singleton] at he
        rcases he with rfl | he
        · exact ⟨_, rfl⟩
        · exact ih e he
    · simp only [SpectateLoopActive]
      split
      · simp
      · exact ih

/-- The unfolding of `SpectateLoop` after a join that the controller
accepts. -/
theorem SpectateLoop_joined (c : ChessGamesController σ) (s s1 : σ)
    (j : GameSpectatorJoinUpdate) (sid : Int) (events : List Event)
    (hj : c.SpectatorJoin s j = ((sid, none), s1)) :
    SpectateLoop c s (.msg ⟨.SpectatorJoin j, "spectator_join_update"⟩) events =
      (Run.deferred (.SpectatorLeave ⟨j.GameId, sid⟩)
          (fun t => c.SpectatorLeave t ⟨j.GameId, sid⟩)
          (SpectateLoopActive s1 events)).emit
        [.SpectatorJoin j sid none,
         .logInfo "Spectator %d is now spectating game %d" [.int sid, .int j.GameId]] := by
  simp [SpectateLoop, hj]

/-- A run of `SpectateLoop` that is still waiting has joined. -/
theorem SpectateLoop_blocked_joined (c : ChessGamesController σ) (s : σ) (first : Recv)
    (events : List Event) (h : (SpectateLoop c s first events).outcome = .blocked) :
    ∃ j sid s1, first = .msg ⟨.SpectatorJoin j, "spectator_join_update"⟩ ∧
      c.SpectatorJoin s j = ((sid, none), s1) := by
  rcases first with ⟨g, tag⟩ | _
  · by_cases ht : tag = "spectator_join_update"
    · subst ht
      cases g with
      | SpectatorJoin j =>
        rcases hj : c.SpectatorJoin s j with ⟨⟨sid, _ | err⟩, s1⟩
        · exact ⟨j, sid, s1, rfl, hj⟩
        · simp [SpectateLoop, hj] at h
      | _ => simp [SpectateLoop] at h
    · simp [SpectateLoop, ht] at h
  · simp [SpectateLoop] at h

/-- Running `SpectateLoop` over `pre ++ post` when it is in the Active state
after `pre`. -/
theorem SpectateLoop_append (c : ChessGamesController σ) (s s1 : σ)
    (j : GameSpectatorJoinUpdate) (sid : Int) (pre post : List Event)
    (hj : c.SpectatorJoin s j = ((sid, none), s1))
    (h : (SpectateLoop c s (.msg ⟨.SpectatorJoin j, "spectator_join_update"⟩) pre).outcome
      = .blocked) :
    SpectateLoop c s (.msg ⟨.SpectatorJoin j, "spectator_join_update"⟩) (pre ++ post) =
      (Run.deferred (.SpectatorLeave ⟨j.GameId, sid⟩)
          (fun t => c.SpectatorLeave t ⟨j.GameId, sid⟩)
          (SpectateLoopActive s1 post)).emit
        (SpectateLoop c s (.msg ⟨.SpectatorJoin j, "spectator_join_update"⟩) pre).trace := by
  rw [SpectateLoop_joined c s s1 j sid _ hj] at h ⊢
  rw [SpectateLoop_joined c s s1 j sid _ hj]
  simp only [Run.emit_outcome, Run.deferred_outcome] at h
  rw [SpectateLoopActive_append pre post s1 h, Run.deferred_emit, Run.emit_emit,
    Run.deferred_blocked _ _ _ h]
  rfl

theorem SpectateLoopActive_idle (evs : List Event) (s : σ)
    (h : evs.all Event.isClosedOrPlainUpdate = true) :
    (SpectateLoopActive s evs).outcome = .blocked := by
  induction evs with
  | nil => rfl
  | cons e es ih =>
    simp only [List.all_cons, Bool.and_eq_true] at h
    rcases e with u | (m | _)
    · have hu : u.string ≠ "result_update" := by
        simpa [Event.isClosedOrPlainUpdate] using h.1
      simp only [SpectateLoopActive, hu, if_false, Run.emit_outcome]
      exact ih h.2
    · simp [Event.isClosedOrPlainUpdate] at h
    · have hz : (Recv.closed).val.string ≠ "EOF" := by decide
      simp only [SpectateLoopActive, hz, if_false]
      exact ih h.2

end Basic

/-! ## Claims about `PlayerLoop` -/

section Player

variable {σ : Type}

/-- C1: on every run of `PlayerLoop` that returns, whatever the controller
does, the number of `PlayerLeave` calls is 1 if a `PlayerJoin` call returned
without error and 0 otherwise, and when the join succeeded `PlayerLeave`, for
the game and player of the join, is the last controller call. -/
theorem C1_player_leave_iff_joined (c : ChessGamesController σ) (s : σ) (first : Recv)
    (events : List Event)
    (h : (PlayerLoop c s first events).outcome = .returned) :
    (PlayerLoop c s first events).trace.countP Effect.isPlayerLeave =
        (if (PlayerLoop c s first events).trace.any Effect.isPlayerJoinOk then 1 else 0) ∧
      ∀ j, Effect.PlayerJoin j none ∈ (PlayerLoop c s first events).trace →
        (calls (PlayerLoop c s first events).trace).getLast? =
          some (.PlayerLeave ⟨j.GameId, j.PlayerId⟩) := by
  by_cases hj : ∃ j s1, first = .msg ⟨.PlayerJoined j, "player_joined_update"⟩ ∧
      c.PlayerJoin s j = (none, s1)
  · obtain ⟨j, s1, rfl, hj⟩ := hj
    rw [PlayerLoop_joined c s s1 j events hj] at h ⊢
    simp only [Run.emit_outcome, Run.deferred_outcome] at h
    rw [Run.deferred_returned _ _ _ h]
    have hact := PlayerLoopActive_effects c j.PlayerId events s1
    have h0 : (PlayerLoopActive c j.PlayerId s1 events).trace.countP Effect.isPlayerLeave = 0 := by
      rw [List.countP_eq_zero]
      intro e he
      simp [loopEffect_not_playerLeave (hact e he)]
    refine ⟨?_, ?_⟩
    · simp [List.countP_append, List.countP_cons, h0, Effect.isPlayerLeave,
        Effect.isPlayerJoinOk]
    · intro j2 hmem
      have hj2 : j2 = j := by
        simp only [Run.emit_trace, List.mem_append, List.mem_cons, List.mem_singleton,
          List.not_mem_nil, or_false, Effect.PlayerJoin.injEq, and_true] at hmem
        rcases hmem with (h1 | h1) | h1 | h1
        · exact h1
        · cases h1
        · exact absurd rfl (loopEffect_not_playerJoin (hact _ h1) j2 none)
        · cases h1
      subst hj2
      simp only [Run.emit_trace, ← List.append_assoc]
      rw [calls_append]
      exact List.getLast?_concat _
  · obtain ⟨_, _, hall⟩ := PlayerLoop_not_joined c s first events hj
    refine ⟨?_, ?_⟩
    · have h1 : (PlayerLoop c s first events).trace.any Effect.isPlayerJoinOk = false := by
        rw [List.any_eq_false]
        intro e he
        rcases hall e he with ⟨f, a, rfl⟩ | ⟨j, err, rfl⟩ <;> simp [Effect.isPlayerJoinOk]
      rw [h1]
      simp only [Bool.false_eq_true, if_false, List.countP_eq_zero]
      intro e he
      rcases hall e he with ⟨f, a, rfl⟩ | ⟨j, err, rfl⟩ <;> simp [Effect.isPlayerLeave]
    · intro j hmem
      rcases hall _ hmem with ⟨f, a, h1⟩ | ⟨j, err, h1⟩ <;> cases h1

/-- C2: when the first receive reports a closed channel or yields a message
whose tag is not `player_joined_update`, `PlayerLoop` returns at once: one
error record is its whole trace, so no controller call is made and nothing is
sent, no event is consumed and the controller state is unchanged. -/
theorem C2_first_message_not_join (c : ChessGamesController σ) (s : σ) (first : Recv)
    (events : List Event)
    (h : first = .closed ∨ ∃ m, first = .msg m ∧ m.string ≠ "player_joined_update") :
    (∃ f a, (PlayerLoop c s first events).trace = [.logError f a]) ∧
      calls (PlayerLoop c s first events).trace = [] ∧
      sent (PlayerLoop c s first events).trace = [] ∧
      (PlayerLoop c s first events).outcome = .returned ∧
      (PlayerLoop c s first events).rest = events ∧
      (PlayerLoop c s first events).ctl = s := by
  rcases h with rfl | ⟨m, rfl, hm⟩
  · exact ⟨⟨_, _, rfl⟩, rfl, rfl, rfl, rfl, rfl⟩
  · have hrun : PlayerLoop c s (.msg m) events =
        ⟨[.logError "Expected join update, instead received %s" [.update m.GameUpdate]],
          .returned, events, s⟩ := by
      simp [PlayerLoop, hm]
    rw [hrun]
    exact ⟨⟨_, _, rfl⟩, rfl, rfl, rfl, rfl, rfl⟩

/-- C3: when `PlayerLoop` is in the Active state after the events `pre` and
the next event is an update tagged `result_update`, the run adds exactly the
send of that payload and then the `PlayerLeave` call, returns, and leaves
every later event unconsumed; the payload is the last value sent. -/
theorem C3_result_terminal (c : ChessGamesController σ) (s : σ) (first : Recv)
    (pre post : List Event) (u : GameUpdate)
    (hact : (PlayerLoop c s first pre).outcome = .blocked) :
    ∃ j, first = .msg ⟨.PlayerJoined j, "player_joined_update"⟩ ∧
      (PlayerLoop c s first (pre ++ .update ⟨u, "result_update"⟩ :: post)).trace =
        (PlayerLoop c s first pre).trace ++
          [.wsOut u, .PlayerLeave ⟨j.GameId, j.PlayerId⟩] ∧
      (sent (PlayerLoop c s first (pre ++ .update ⟨u, "result_update"⟩ :: post)).trace).getLast?
        = some u ∧
      (PlayerLoop c s first (pre ++ .update ⟨u, "result_update"⟩ :: post)).outcome
        = .returned ∧
      (PlayerLoop c s first (pre ++ .update ⟨u, "result_update"⟩ :: post)).rest = post := by
  obtain ⟨j, s1, rfl, hj⟩ := PlayerLoop_blocked_joined c s first pre hact
  refine ⟨j, rfl, ?_⟩
  rw [PlayerLoop_append c s s1 j pre _ hj hact]
  simp only [PlayerLoopActive, if_true, Run.deferred, Run.emit_trace, Run.emit_outcome,
    Run.emit_rest, List.singleton_append, true_and]
  rw [sent_append]
  simp [sent]

/-- C4: scenario A. The client joins game `g` as player `p` and the join is
accepted, the client sends the move `m` and the move is accepted, then the
controller emits an update tagged `result_update` with payload `r`. The trace
of `PlayerLoop` is then the join, the move, the send of `r` and the leave, in
this order: the controller calls are exactly `PlayerJoin`, `MakeMove`,
`PlayerLeave`, the output channel receives exactly `r`, and `PlayerLeave`
comes after the send. Later events are not consumed. -/
theorem C4_scenario_join_move_result (c : ChessGamesController σ) (s s1 s2 : σ)
    (g p : Int) (m : String) (r : GameUpdate) (post : List Event)
    (hj : c.PlayerJoin s ⟨g, p⟩ = (none, s1))
    (hm : c.MakeMove s1 ⟨m⟩ = (none, s2)) :
    (PlayerLoop c s (.msg ⟨.PlayerJoined ⟨g, p⟩, "player_joined_update"⟩)
        (.client (.msg ⟨.Move ⟨m⟩, "move_update"⟩) :: .update ⟨r, "result_update"⟩ :: post)).trace
      = [.PlayerJoin ⟨g, p⟩ none,
         .logInfo "Player %d joined game %d" [.int p, .int g],
         .logInfo "Player %d entered move %s" [.int p, .str m],
         .MakeMove ⟨m⟩ none,
         .wsOut r,
         .PlayerLeave ⟨g, p⟩] ∧
    calls (PlayerLoop c s (.msg ⟨.PlayerJoined ⟨g, p⟩, "player_joined_update"⟩)
        (.client (.msg ⟨.Move ⟨m⟩, "move_update"⟩) :: .update ⟨r, "result_update"⟩ :: post)).trace
      = [.PlayerJoin ⟨g, p⟩ none, .MakeMove ⟨m⟩ none, .PlayerLeave ⟨g, p⟩] ∧
    sent (PlayerLoop c s (.msg ⟨.PlayerJoined ⟨g, p⟩, "player_joined_update"⟩)
        (.client (.msg ⟨.Move ⟨m⟩, "move_update"⟩) :: .update ⟨r, "result_update"⟩ :: post)).trace
      = [r] ∧
    (PlayerLoop c s (.msg ⟨.PlayerJoined ⟨g, p⟩, "player_joined_update"⟩)
        (.client (.msg ⟨.Move ⟨m⟩, "move_update"⟩) :: .update ⟨r, "result_update"⟩ :: post)).outcome
      = .returned ∧
    (PlayerLoop c s (.msg ⟨.PlayerJoined ⟨g, p⟩, "player_joined_update"⟩)
        (.client (.msg ⟨.Move ⟨m⟩, "move_update"⟩) :: .update ⟨r, "result_update"⟩ :: post)).rest
      = post := by
  have hrun : PlayerLoop c s (.msg ⟨.PlayerJoined ⟨g, p⟩, "player_joined_update"⟩)
      (.client (.msg ⟨.Move ⟨m⟩, "move_update"⟩) :: .update ⟨r, "result_update"⟩ :: post) =
      ⟨[.PlayerJoin ⟨g, p⟩ none,
         .logInfo "Player %d joined game %d" [.int p, .int g],
         .logInfo "Player %d entered move %s" [.int p, .str m],
         .MakeMove ⟨m⟩ none,
         .wsOut r,
         .PlayerLeave ⟨g, p⟩], .returned, post, c.PlayerLeave s2 ⟨g, p⟩⟩ := by
    rw [PlayerLoop_joined c s s1 ⟨g, p⟩ _ hj]
    simp [PlayerLoopActive, hm, Run.deferred, Run.emit]
  rw [hrun]
  exact ⟨rfl, rfl, rfl, rfl, rfl⟩

/-- C5: after an accepted join, for every list of events picked by the
`select` of `PlayerLoop`: the events split into those consumed and those
left; the arguments of the `MakeMove` calls are, in order, the payloads of
the Move messages among the consumed events, and the values sent on the
output channel are, in order, the payloads of the consumed updates. -/
theorem C5_forwarding_preserves_order (c : ChessGamesController σ) (s s1 : σ)
    (j : GamePlayerJoinedUpdate) (events : List Event)
    (hj : c.PlayerJoin s j = (none, s1)) :
    events =
        consumed events
            (PlayerLoop c s (.msg ⟨.PlayerJoined j, "player_joined_update"⟩) events).rest ++
          (PlayerLoop c s (.msg ⟨.PlayerJoined j, "player_joined_update"⟩) events).rest ∧
      movesMade (PlayerLoop c s (.msg ⟨.PlayerJoined j, "player_joined_update"⟩) events).trace =
        movesReceived (consumed events
          (PlayerLoop c s (.msg ⟨.PlayerJoined j, "player_joined_update"⟩) events).rest) ∧
      sent (PlayerLoop c s (.msg ⟨.PlayerJoined j, "player_joined_update"⟩) events).trace =
        updatesReceived (consumed events
          (PlayerLoop c s (.msg ⟨.PlayerJoined j, "player_joined_update"⟩) events).rest) := by
  rw [PlayerLoop_joined c s s1 j _ hj]
  obtain ⟨used, h1, h2, h3⟩ := PlayerLoopActive_consumed c j.PlayerId events s1
  have key : ∀ rest, events = used ++ rest → consumed events rest = used := by
    intro rest h
    rw [h]
    exact consumed_append used rest
  simp only [Run.emit_rest, Run.deferred_rest, Run.emit_trace]
  rw [key _ h1, movesMade_append, sent_append, movesMade_deferred_leave, sent_deferred_leave]
  exact ⟨h1, by simpa [movesMade] using h2, by simpa [sent] using h3⟩

/-- C9: when `PlayerLoop` is in the Active state after the events `pre`:
a client message tagged neither `EOF` nor `move_update` adds one error record
and the leave call, no `MakeMove` or `PlayerJoin`, and the function returns
with the later events unconsumed; a move that `MakeMove` rejects adds the
call, one error record and the leave call, and the function returns with the
later events unconsumed; a move that `MakeMove` accepts adds the call only,
and the loop goes on with the later events in the Active state. -/
theorem C9_active_errors_terminal (c : ChessGamesController σ) (s : σ) (first : Recv)
    (pre post : List Event)
    (hact : (PlayerLoop c s first pre).outcome = .blocked) :
    ∃ j, first = .msg ⟨.PlayerJoined j, "player_joined_update"⟩ ∧
      (∀ m : Envelope, m.string ≠ "EOF" → m.string ≠ "move_update" →
        (PlayerLoop c s first (pre ++ .client (.msg m) :: post)).trace =
            (PlayerLoop c s first pre).trace ++
              [.logError "Expected move update, instead received %s" [.update m.GameUpdate],
               .PlayerLeave ⟨j.GameId, j.PlayerId⟩] ∧
          (PlayerLoop c s first (pre ++ .client (.msg m) :: post)).outcome = .returned ∧
          (PlayerLoop c s first (pre ++ .client (.msg m) :: post)).rest = post) ∧
      (∀ mv err s2, c.MakeMove (PlayerLoop c s first pre).ctl mv = (some err, s2) →
        (PlayerLoop c s first
            (pre ++ .client (.msg ⟨.Move mv, "move_update"⟩) :: post)).trace =
            (PlayerLoop c s first pre).trace ++
              [.logInfo "Player %d entered move %s" [.int j.PlayerId, .str mv.Move],
               .MakeMove mv (some err),
               .logError "Invalid move %s" [.err err],
               .PlayerLeave ⟨j.GameId, j.PlayerId⟩] ∧
          (PlayerLoop c s first
            (pre ++ .client (.msg ⟨.Move mv, "move_update"⟩) :: post)).outcome = .returned ∧
          (PlayerLoop c s first
            (pre ++ .client (.msg ⟨.Move mv, "move_update"⟩) :: post)).rest = post) ∧
      (∀ mv s2, c.MakeMove (PlayerLoop c s first pre).ctl mv = (none, s2) →
        (PlayerLoop c s first
            (pre ++ [.client (.msg ⟨.Move mv, "move_update"⟩)])).outcome = .blocked ∧
          PlayerLoop c s first (pre ++ .client (.msg ⟨.Move mv, "move_update"⟩) :: post) =
            (Run.deferred (.PlayerLeave ⟨j.GameId, j.PlayerId⟩)
                (fun t => c.PlayerLeave t ⟨j.GameId, j.PlayerId⟩)
                (PlayerLoopActive c j.PlayerId s2 post)).emit
              ((PlayerLoop c s first pre).trace ++
                [.logInfo "Player %d entered move %s" [.int j.PlayerId, .str mv.Move],
                 .MakeMove mv none])) := by
  obtain ⟨j, s1, rfl, hj⟩ := PlayerLoop_blocked_joined c s first pre hact
  refine ⟨j, rfl, ?_, ?_, ?_⟩
  · intro m h1 h2
    rw [PlayerLoop_append c s s1 j pre _ hj hact]
    simp [PlayerLoopActive, h1, h2, Run.deferred]
  · intro mv err s2 hm
    rw [PlayerLoop_append c s s1 j pre _ hj hact]
    simp [PlayerLoopActive, hm, Run.deferred]
  · intro mv s2 hm
    rw [PlayerLoop_append c s s1 j pre _ hj hact, PlayerLoop_append c s s1 j pre _ hj hact]
    refine ⟨by simp [PlayerLoopActive, hm], ?_⟩
    have hstep : PlayerLoopActive c j.PlayerId
        (PlayerLoop c s (.msg ⟨.PlayerJoined j, "player_joined_update"⟩) pre).ctl
        (.client (.msg ⟨.Move mv, "move_update"⟩) :: post) =
        (PlayerLoopActive c j.PlayerId s2 post).emit
          [.logInfo "Player %d entered move %s" [.int j.PlayerId, .str mv.Move],
           .MakeMove mv none] := by
      simp [PlayerLoopActive, hm]
    rw [hstep, Run.deferred_emit, Run.emit_emit]

end Player

/-! ## Claims about `SpectateLoop` -/

section Spectator

variable {σ : Type}

/-- C6: when `SpectateLoop` is in the Active state after the events `pre`,
a client message whose tag is not `EOF` has no effect: the run over the
events with the message equals the run over the events without it, and right
after the message the loop is still Active with the same trace (no call, no
send, no log record) and the same controller state; a client message tagged
`EOF` makes the function return. -/
theorem C6_spectator_ignores_client (c : ChessGamesController σ) (s : σ) (first : Recv)
    (pre post : List Event)
    (hact : (SpectateLoop c s first pre).outcome = .blocked) :
    (∀ m : Envelope, m.string ≠ "EOF" →
      SpectateLoop c s first (pre ++ .client (.msg m) :: post) =
          SpectateLoop c s first (pre ++ post) ∧
        (SpectateLoop c s first (pre ++ [.client (.msg m)])).outcome = .blocked ∧
        (SpectateLoop c s first (pre ++ [.client (.msg m)])).trace =
          (SpectateLoop c s first pre).trace ∧
        (SpectateLoop c s first (pre ++ [.client (.msg m)])).ctl =
          (SpectateLoop c s first pre).ctl) ∧
      ∀ u : GameUpdate,
        (SpectateLoop c s first (pre ++ .client (.msg ⟨u, "EOF"⟩) :: post)).outcome
            = .returned ∧
          (SpectateLoop c s first (pre ++ .client (.msg ⟨u, "EOF"⟩) :: post)).rest = post := by
  obtain ⟨j, sid, s1, rfl, hj⟩ := SpectateLoop_blocked_joined c s first pre hact
  refine ⟨?_, ?_⟩
  · intro m hm
    have hskip : ∀ es, SpectateLoopActive s1 (.client (.msg m) :: es) =
        SpectateLoopActive s1 es := by
      intro es
      simp [SpectateLoopActive, Recv.val, hm]
    have hone : SpectateLoop c s (.msg ⟨.SpectatorJoin j, "spectator_join_update"⟩)
        (pre ++ [.client (.msg m)]) =
        SpectateLoop c s (.msg ⟨.SpectatorJoin j, "spectator_join_update"⟩) pre := by
      rw [SpectateLoop_append c s s1 j sid pre _ hj hact, hskip]
      have := SpectateLoop_append c s s1 j sid pre [] hj hact
      rw [List.append_nil] at this
      exact this.symm
    refine ⟨?_, ?_, ?_, ?_⟩
    · rw [SpectateLoop_append c s s1 j sid pre _ hj hact,
        SpectateLoop_append c s s1 j sid pre _ hj hact, hskip]
    · rw [hone]
      exact hact
    · rw [hone]
    · rw [hone]
  · intro u
    rw [SpectateLoop_append c s s1 j sid pre _ hj hact]
    simp [SpectateLoopActive, Recv.val, Run.deferred]

/-- C7: after `SpectatorJoin` for game `g` returned the spectator id `sid`
without error, every run of `SpectateLoop` that returns calls
`SpectatorLeave` exactly once, with `g` and `sid`, as its last effect, and
logs no error. -/
theorem C7_spectator_leave_once (c : ChessGamesController σ) (s s1 : σ) (g sid : Int)
    (events : List Event)
    (hj : c.SpectatorJoin s ⟨g⟩ = ((sid, none), s1))
    (hret : (SpectateLoop c s (.msg ⟨.SpectatorJoin ⟨g⟩, "spectator_join_update"⟩)
      events).outcome = .returned) :
    (SpectateLoop c s (.msg ⟨.SpectatorJoin ⟨g⟩, "spectator_join_update"⟩)
        events).trace.filter Effect.isSpectatorLeave = [.SpectatorLeave ⟨g, sid⟩] ∧
      (SpectateLoop c s (.msg ⟨.SpectatorJoin ⟨g⟩, "spectator_join_update"⟩)
        events).trace.getLast? = some (.SpectatorLeave ⟨g, sid⟩) ∧
      (SpectateLoop c s (.msg ⟨.SpectatorJoin ⟨g⟩, "spectator_join_update"⟩)
        events).trace.filter Effect.isLogError = [] := by
  rw [SpectateLoop_joined c s s1 ⟨g⟩ sid _ hj] at hret ⊢
  simp only [Run.emit_outcome, Run.deferred_outcome] at hret
  rw [Run.deferred_returned _ _ _ hret]
  have hact := SpectateLoopActive_effects events s1
  have h1 : (SpectateLoopActive s1 events).trace.filter Effect.isSpectatorLeave = [] := by
    rw [List.filter_eq_nil_iff]
    intro e he
    obtain ⟨u, rfl⟩ := hact e he
    simp [Effect.isSpectatorLeave]
  have h2 : (SpectateLoopActive s1 events).trace.filter Effect.isLogError = [] := by
    rw [List.filter_eq_nil_iff]
    intro e he
    obtain ⟨u, rfl⟩ := hact e he
    simp [Effect.isLogError]
  refine ⟨?_, ?_, ?_⟩
  · simp [List.filter_cons, h1, Effect.isSpectatorLeave]
  · simp only [Run.emit_trace, ← List.append_assoc]
    exact List.getLast?_concat _
  · simp [List.filter_cons, h2, Effect.isLogError]

end Spectator

/-! ## Claims about both loops -/

section Both

variable {σ : Type}

/-- C8 (as the code behaves): an envelope tagged `player_joined_update` or
`spectator_join_update` as first message, or tagged `move_update` in the
Active state of `PlayerLoop`, whose payload has another dynamic type, makes
the unchecked type assertion fail. No `PlayerJoin`, `SpectatorJoin` or
`MakeMove` call is made for it and no error is logged, but the function does
not return normally: it panics, and in the Active state the deferred
`PlayerLeave` runs. The two first-message cases hold for every controller
and state; only the `move_update` case supposes a session that is Active
after the events `pre`. -/
theorem C8_tag_mismatch_fails_assertion (c : ChessGamesController σ) (s : σ)
    (g1 g2 g3 : GameUpdate) (events : List Event) (first : Recv) (pre post : List Event)
    (h1 : g1.isPlayerJoined = false) (h2 : g2.isSpectatorJoin = false)
    (h3 : g3.isMove = false) :
    PlayerLoop c s (.msg ⟨g1, "player_joined_update"⟩) events = ⟨[], .panicked, events, s⟩ ∧
      SpectateLoop c s (.msg ⟨g2, "spectator_join_update"⟩) events
        = ⟨[], .panicked, events, s⟩ ∧
      ((PlayerLoop c s first pre).outcome = .blocked →
        ∃ j, first = .msg ⟨.PlayerJoined j, "player_joined_update"⟩ ∧
          (PlayerLoop c s first (pre ++ .client (.msg ⟨g3, "move_update"⟩) :: post)).trace =
            (PlayerLoop c s first pre).trace ++ [.PlayerLeave ⟨j.GameId, j.PlayerId⟩] ∧
          (PlayerLoop c s first (pre ++ .client (.msg ⟨g3, "move_update"⟩) :: post)).outcome
            = .panicked ∧
          (PlayerLoop c s first (pre ++ .client (.msg ⟨g3, "move_update"⟩) :: post)).rest
            = post) := by
  refine ⟨?_, ?_, ?_⟩
  · cases g1 <;> simp_all [PlayerLoop, GameUpdate.isPlayerJoined]
  · cases g2 <;> simp_all [SpectateLoop, GameUpdate.isSpectatorJoin]
  · intro hact
    obtain ⟨j, s1, rfl, hj⟩ := PlayerLoop_blocked_joined c s first pre hact
    refine ⟨j, rfl, ?_⟩
    rw [PlayerLoop_append c s s1 j pre _ hj hact]
    cases g3 <;> simp_all [PlayerLoopActive, Run.deferred, GameUpdate.isMove]

/-- C10: a receive from the closed inbound channel in the Active state.
When `PlayerLoop` is Active after `preP`, it logs an error, runs
`PlayerLeave` and returns. When `SpectateLoop` is Active after `preS`, it
sees the zero value, whose tag is empty: the receive has no effect, and over
any events that are only such receives and updates not tagged
`result_update` the loop stays Active and `SpectatorLeave` is not called.
Each half supposes only its own loop to be Active. -/
theorem C10_closed_inbound (c : ChessGamesController σ) (s : σ)
    (firstP firstS : Recv) (preP preS post evs : List Event) :
    ((PlayerLoop c s firstP preP).outcome = .blocked →
      ∃ j, firstP = .msg ⟨.PlayerJoined j, "player_joined_update"⟩ ∧
        (PlayerLoop c s firstP (preP ++ .client .closed :: post)).trace =
          (PlayerLoop c s firstP preP).trace ++
            [.logError "\x7b\"reason\": \"Failed to receive move from client\"\x7d" [],
             .PlayerLeave ⟨j.GameId, j.PlayerId⟩] ∧
        (PlayerLoop c s firstP (preP ++ .client .closed :: post)).outcome = .returned ∧
        (PlayerLoop c s firstP (preP ++ .client .closed :: post)).rest = post) ∧
      ((SpectateLoop c s firstS preS).outcome = .blocked →
        SpectateLoop c s firstS (preS ++ .client .closed :: post) =
            SpectateLoop c s firstS (preS ++ post) ∧
          (evs.all Event.isClosedOrPlainUpdate = true →
            (SpectateLoop c s firstS (preS ++ evs)).outcome = .blocked ∧
              (SpectateLoop c s firstS (preS ++ evs)).trace.filter Effect.isSpectatorLeave
                = [])) := by
  refine ⟨?_, ?_⟩
  · intro hp
    obtain ⟨j, s1, rfl, hj⟩ := PlayerLoop_blocked_joined c s firstP preP hp
    refine ⟨j, rfl, ?_⟩
    rw [PlayerLoop_append c s s1 j preP _ hj hp]
    simp [PlayerLoopActive, Run.deferred]
  · intro hs
    obtain ⟨j, sid, s1, rfl, hj⟩ := SpectateLoop_blocked_joined c s firstS preS hs
    refine ⟨?_, ?_⟩
    · rw [SpectateLoop_append c s s1 j sid preS _ hj hs,
        SpectateLoop_append c s s1 j sid preS _ hj hs]
      have hskip : SpectateLoopActive s1 (.client .closed :: post) =
          SpectateLoopActive s1 post := by
        have hz : (Recv.closed).val.string ≠ "EOF" := by decide
        simp only [SpectateLoopActive, hz, if_false]
      rw [hskip]
    · intro hev
      have hidle := SpectateLoopActive_idle evs s1 hev
      refine ⟨?_, ?_⟩
      · rw [SpectateLoop_append c s s1 j sid preS _ hj hs]
        simp only [Run.emit_outcome, Run.deferred_outcome]
        exact hidle
      · rw [SpectateLoop_append c s s1 j sid preS _ hj hs, Run.deferred_blocked _ _ _ hidle,
          SpectateLoop_joined c s s1 j sid _ hj]
        rw [SpectateLoop_joined c s s1 j sid _ hj] at hs
        simp only [Run.emit_outcome, Run.deferred_outcome] at hs
        rw [Run.deferred_blocked _ _ _ hs]
        simp only [Run.emit_trace, List.filter_append, List.append_eq_nil]
        refine ⟨⟨by simp [Effect.isSpectatorLeave], ?_⟩, ?_⟩
        · rw [List.filter_eq_nil_iff]
          intro e he
          obtain ⟨u, rfl⟩ := SpectateLoopActive_effects preS s1 e he
          simp [Effect.isSpectatorLeave]
        · rw [List.filter_eq_nil_iff]
          intro e he
          obtain ⟨u, rfl⟩ := SpectateLoopActive_effects evs s1 e he
          simp [Effect.isSpectatorLeave]

end Both

/-! ## The claims at concrete sessions -/

section Concrete

/-- C1 at a session that joins game 1 as player 7, moves and disconnects. -/
theorem C1_player_leave_iff_joined_witness :
    (PlayerLoop acceptAll 0 joinAs7
        [.client (.msg moveE2E4), .client (.msg eof)]).outcome = .returned ∧
      (PlayerLoop acceptAll 0 joinAs7
        [.client (.msg moveE2E4), .client (.msg eof)]).trace.countP Effect.isPlayerLeave = 1 ∧
      (calls (PlayerLoop acceptAll 0 joinAs7
        [.client (.msg moveE2E4), .client (.msg eof)]).trace).getLast?
        = some (.PlayerLeave ⟨1, 7⟩) ∧
      (PlayerLoop rejectAll 0 joinAs7 [.client (.msg moveE2E4)]).outcome = .returned ∧
      (PlayerLoop rejectAll 0 joinAs7
        [.client (.msg moveE2E4)]).trace.countP Effect.isPlayerLeave = 0 :=
  ⟨by decide,
    (C1_player_leave_iff_joined acceptAll 0 joinAs7
      [.client (.msg moveE2E4), .client (.msg eof)] (by decide)).1.trans (by decide),
    (C1_player_leave_iff_joined acceptAll 0 joinAs7
      [.client (.msg moveE2E4), .client (.msg eof)] (by decide)).2 ⟨1, 7⟩ (by decide),
    by decide,
    (C1_player_leave_iff_joined rejectAll 0 joinAs7 [.client (.msg moveE2E4)]
      (by decide)).1.trans (by decide)⟩

/-- C2 at scenario C: the first message is a move. -/
theorem C2_first_message_not_join_witness :
    moveE2E4.string ≠ "player_joined_update" ∧
      calls (PlayerLoop acceptAll 0 (.msg moveE2E4) [.client (.msg eof)]).trace = [] ∧
      sent (PlayerLoop acceptAll 0 (.msg moveE2E4) [.client (.msg eof)]).trace = [] ∧
      (PlayerLoop acceptAll 0 (.msg moveE2E4) [.client (.msg eof)]).outcome = .returned ∧
      (PlayerLoop acceptAll 0 (.msg moveE2E4) [.client (.msg eof)]).rest
        = [.client (.msg eof)] ∧
      (PlayerLoop acceptAll 0 (.msg moveE2E4) [.client (.msg eof)]).ctl = 0 :=
  ⟨by decide,
    (C2_first_message_not_join acceptAll 0 (.msg moveE2E4) [.client (.msg eof)]
      (Or.inr ⟨moveE2E4, rfl, by decide⟩)).2⟩

/-- C3 at a session where a result arrives after one move and is followed by
another move of the client. -/
theorem C3_result_terminal_witness :
    (PlayerLoop acceptAll 0 joinAs7 [.client (.msg moveE2E4)]).outcome = .blocked ∧
      (sent (PlayerLoop acceptAll 0 joinAs7
        ([.client (.msg moveE2E4)] ++
          .update ⟨.Result ⟨"1-0"⟩, "result_update"⟩ :: [.client (.msg moveE2E4)])).trace).getLast?
        = some (.Result ⟨"1-0"⟩) ∧
      (PlayerLoop acceptAll 0 joinAs7
        ([.client (.msg moveE2E4)] ++
          .update ⟨.Result ⟨"1-0"⟩, "result_update"⟩ :: [.client (.msg moveE2E4)])).outcome
        = .returned ∧
      (PlayerLoop acceptAll 0 joinAs7
        ([.client (.msg moveE2E4)] ++
          .update ⟨.Result ⟨"1-0"⟩, "result_update"⟩ :: [.client (.msg moveE2E4)])).rest
        = [.client (.msg moveE2E4)] := by
  obtain ⟨_, _, _, hlast, hout, hrest⟩ :=
    C3_result_terminal acceptAll 0 joinAs7 [.client (.msg moveE2E4)]
      [.client (.msg moveE2E4)] (.Result ⟨"1-0"⟩) (by decide)
  exact ⟨by decide, hlast, hout, hrest⟩

/-- C4 at g = 1, p = 7, m = e2e4. -/
theorem C4_scenario_join_move_result_witness :
    acceptAll.PlayerJoin 0 ⟨1, 7⟩ = (none, 1) ∧
      acceptAll.MakeMove 1 ⟨"e2e4"⟩ = (none, 2) ∧
      calls (PlayerLoop acceptAll 0 (.msg ⟨.PlayerJoined ⟨1, 7⟩, "player_joined_update"⟩)
        (.client (.msg ⟨.Move ⟨"e2e4"⟩, "move_update"⟩) ::
          .update ⟨.Result ⟨"1-0"⟩, "result_update"⟩ :: [])).trace
        = [.PlayerJoin ⟨1, 7⟩ none, .MakeMove ⟨"e2e4"⟩ none, .PlayerLeave ⟨1, 7⟩] ∧
      sent (PlayerLoop acceptAll 0 (.msg ⟨.PlayerJoined ⟨1, 7⟩, "player_joined_update"⟩)
        (.client (.msg ⟨.Move ⟨"e2e4"⟩, "move_update"⟩) ::
          .update ⟨.Result ⟨"1-0"⟩, "result_update"⟩ :: [])).trace
        = [.Result ⟨"1-0"⟩] :=
  ⟨rfl, rfl,
    (C4_scenario_join_move_result acceptAll 0 1 2 1 7 "e2e4" (.Result ⟨"1-0"⟩) [] rfl rfl).2.1,
    (C4_scenario_join_move_result acceptAll 0 1 2 1 7 "e2e4" (.Result ⟨"1-0"⟩) [] rfl rfl).2.2.1⟩

/-- C5 at a session with two updates and two moves, the last move after the
result. -/
theorem C5_forwarding_preserves_order_witness :
    acceptAll.PlayerJoin 0 ⟨1, 7⟩ = (none, 1) ∧
      movesMade (PlayerLoop acceptAll 0 (.msg ⟨.PlayerJoined ⟨1, 7⟩, "player_joined_update"⟩)
        [.update opponentMove, .client (.msg moveE2E4), .update whiteWins,
          .client (.msg moveE2E4)]).trace = [⟨"e2e4"⟩] ∧
      sent (PlayerLoop acceptAll 0 (.msg ⟨.PlayerJoined ⟨1, 7⟩, "player_joined_update"⟩)
        [.update opponentMove, .client (.msg moveE2E4), .update whiteWins,
          .client (.msg moveE2E4)]).trace = [.Move ⟨"e7e5"⟩, .Result ⟨"1-0"⟩] :=
  ⟨rfl,
    (C5_forwarding_preserves_order acceptAll 0 1 ⟨1, 7⟩
      [.update opponentMove, .client (.msg moveE2E4), .update whiteWins,
        .client (.msg moveE2E4)] rfl).2.1.trans (by decide),
    (C5_forwarding_preserves_order acceptAll 0 1 ⟨1, 7⟩
      [.update opponentMove, .client (.msg moveE2E4), .update whiteWins,
        .client (.msg moveE2E4)] rfl).2.2.trans (by decide)⟩

/-- C6 at a spectator who sends a move after one update. -/
theorem C6_spectator_ignores_client_witness :
    (SpectateLoop acceptAll 0 spectate1 [.update opponentMove]).outcome = .blocked ∧
      (SpectateLoop acceptAll 0 spectate1
        ([.update opponentMove] ++ [.client (.msg moveE2E4)])).outcome = .blocked ∧
      (SpectateLoop acceptAll 0 spectate1
        ([.update opponentMove] ++ [.client (.msg moveE2E4)])).trace =
        (SpectateLoop acceptAll 0 spectate1 [.update opponentMove]).trace ∧
      (SpectateLoop acceptAll 0 spectate1
        ([.update opponentMove] ++ .client (.msg ⟨.nil, "EOF"⟩) :: [])).outcome = .returned :=
  ⟨by decide,
    ((C6_spectator_ignores_client acceptAll 0 spectate1 [.update opponentMove] []
      (by decide)).1 moveE2E4 (by decide)).2.1,
    ((C6_spectator_ignores_client acceptAll 0 spectate1 [.update opponentMove] []
      (by decide)).1 moveE2E4 (by decide)).2.2.1,
    ((C6_spectator_ignores_client acceptAll 0 spectate1 [.update opponentMove] []
      (by decide)).2 .nil).1⟩

/-- C7 at scenario B: game 1, spectator id 3, a stray frame, then EOF. -/
theorem C7_spectator_leave_once_witness :
    acceptAll.SpectatorJoin 0 ⟨1⟩ = ((3, none), 1) ∧
      (SpectateLoop acceptAll 0 (.msg ⟨.SpectatorJoin ⟨1⟩, "spectator_join_update"⟩)
        [.client (.msg moveE2E4), .client (.msg eof)]).outcome = .returned ∧
      (SpectateLoop acceptAll 0 (.msg ⟨.SpectatorJoin ⟨1⟩, "spectator_join_update"⟩)
        [.client (.msg moveE2E4), .client (.msg eof)]).trace.filter Effect.isSpectatorLeave
        = [.SpectatorLeave ⟨1, 3⟩] ∧
      (SpectateLoop acceptAll 0 (.msg ⟨.SpectatorJoin ⟨1⟩, "spectator_join_update"⟩)
        [.client (.msg moveE2E4), .client (.msg eof)]).trace.getLast?
        = some (.SpectatorLeave ⟨1, 3⟩) ∧
      (SpectateLoop acceptAll 0 (.msg ⟨.SpectatorJoin ⟨1⟩, "spectator_join_update"⟩)
        [.client (.msg moveE2E4), .client (.msg eof)]).trace.filter Effect.isLogError = [] :=
  ⟨rfl, by decide,
    C7_spectator_leave_once acceptAll 0 1 1 3 [.client (.msg moveE2E4), .client (.msg eof)]
      rfl (by decide)⟩

/-- C8 as stated fails: a first message tagged `player_joined_update` that
carries a move makes `PlayerLoop` panic, with no error logged. -/
theorem C8_counterexample :
    (PlayerLoop acceptAll 0 (.msg ⟨.Move ⟨"e2e4"⟩, "player_joined_update"⟩) []).outcome
        = .panicked ∧
      (PlayerLoop acceptAll 0 (.msg ⟨.Move ⟨"e2e4"⟩, "player_joined_update"⟩) []).outcome
        ≠ .returned ∧
      (PlayerLoop acceptAll 0
        (.msg ⟨.Move ⟨"e2e4"⟩, "player_joined_update"⟩) []).trace.filter Effect.isLogError
        = [] := by
  decide

/-- C8 (as the code behaves) at three mismatched envelopes, the first two
also at a controller that refuses every join. -/
theorem C8_tag_mismatch_fails_assertion_witness :
    (GameUpdate.Move ⟨"e2e4"⟩).isPlayerJoined = false ∧
      (GameUpdate.Move ⟨"e2e4"⟩).isSpectatorJoin = false ∧
      (GameUpdate.PlayerJoined ⟨1, 7⟩).isMove = false ∧
      (PlayerLoop acceptAll 0 joinAs7 [.client (.msg moveE2E4)]).outcome = .blocked ∧
      PlayerLoop acceptAll 0 (.msg ⟨.Move ⟨"e2e4"⟩, "player_joined_update"⟩) []
        = ⟨[], .panicked, [], 0⟩ ∧
      SpectateLoop acceptAll 0 (.msg ⟨.Move ⟨"e2e4"⟩, "spectator_join_update"⟩) []
        = ⟨[], .panicked, [], 0⟩ ∧
      (PlayerLoop acceptAll 0 joinAs7
        ([.client (.msg moveE2E4)] ++
          .client (.msg ⟨.PlayerJoined ⟨1, 7⟩, "move_update"⟩) :: [])).outcome = .panicked ∧
      PlayerLoop rejectAll 0 (.msg ⟨.Move ⟨"e2e4"⟩, "player_joined_update"⟩) []
        = ⟨[], .panicked, [], 0⟩ ∧
      SpectateLoop rejectAll 0 (.msg ⟨.Move ⟨"e2e4"⟩, "spectator_join_update"⟩) []
        = ⟨[], .panicked, [], 0⟩ := by
  obtain ⟨hp, hs, hmove⟩ :=
    C8_tag_mismatch_fails_assertion acceptAll 0 (.Move ⟨"e2e4"⟩) (.Move ⟨"e2e4"⟩)
      (.PlayerJoined ⟨1, 7⟩) [] joinAs7 [.client (.msg moveE2E4)] [] rfl rfl rfl
  obtain ⟨_, _, _, hout, _⟩ := hmove (by decide)
  obtain ⟨hp2, hs2, _⟩ :=
    C8_tag_mismatch_fails_assertion rejectAll 0 (.Move ⟨"e2e4"⟩) (.Move ⟨"e2e4"⟩)
      (.PlayerJoined ⟨1, 7⟩) [] joinAs7 [] [] rfl rfl rfl
  exact ⟨rfl, rfl, rfl, by decide, hp, hs, hout, hp2, hs2⟩

/-- C9 at a session where the client sends a second join after one move. -/
theorem C9_active_errors_terminal_witness :
    (PlayerLoop acceptAll 0 joinAs7 [.client (.msg moveE2E4)]).outcome = .blocked ∧
      (PlayerLoop acceptAll 0 joinAs7
        ([.client (.msg moveE2E4)] ++
          .client (.msg ⟨.PlayerJoined ⟨1, 7⟩, "player_joined_update"⟩) ::
            [.client (.msg moveE2E4)])).outcome = .returned ∧
      (PlayerLoop acceptAll 0 joinAs7
        ([.client (.msg moveE2E4)] ++
          .client (.msg ⟨.PlayerJoined ⟨1, 7⟩, "player_joined_update"⟩) ::
            [.client (.msg moveE2E4)])).rest = [.client (.msg moveE2E4)] ∧
      (PlayerLoop acceptAll 0 joinAs7
        ([.client (.msg moveE2E4)] ++ [.client (.msg ⟨.Move ⟨"d2d4"⟩, "move_update"⟩)])).outcome
        = .blocked ∧
      (PlayerLoop rejectMoves 0 joinAs7 []).outcome = .blocked ∧
      (PlayerLoop rejectMoves 0 joinAs7
        ([] ++ .client (.msg ⟨.Move ⟨"e2e4"⟩, "move_update"⟩) ::
          [.client (.msg moveE2E4)])).outcome = .returned ∧
      (PlayerLoop rejectMoves 0 joinAs7
        ([] ++ .client (.msg ⟨.Move ⟨"e2e4"⟩, "move_update"⟩) ::
          [.client (.msg moveE2E4)])).rest = [.client (.msg moveE2E4)] := by
  obtain ⟨_, _, hbad, _, hok⟩ :=
    C9_active_errors_terminal acceptAll 0 joinAs7 [.client (.msg moveE2E4)]
      [.client (.msg moveE2E4)] (by decide)
  obtain ⟨_, _, _, hrej, _⟩ :=
    C9_active_errors_terminal rejectMoves 0 joinAs7 [] [.client (.msg moveE2E4)] (by decide)
  refine ⟨?_, ?_, ?_, ?_, by decide, (hrej ⟨"e2e4"⟩ "illegal move" 2 rfl).2.1,
    (hrej ⟨"e2e4"⟩ "illegal move" 2 rfl).2.2⟩
  exact by decide
  exact (hbad ⟨.PlayerJoined ⟨1, 7⟩, "player_joined_update"⟩ (by decide) (by decide)).2.1
  exact (hbad ⟨.PlayerJoined ⟨1, 7⟩, "player_joined_update"⟩ (by decide) (by decide)).2.2
  exact (hok ⟨"d2d4"⟩ 3 rfl).1

/-- C10 at a player and a spectator whose inbound channel is closed, and
at a spectator of a controller that accepts no player. -/
theorem C10_closed_inbound_witness :
    (PlayerLoop acceptAll 0 joinAs7 [.client (.msg moveE2E4)]).outcome = .blocked ∧
      (SpectateLoop acceptAll 0 spectate1 [.update opponentMove]).outcome = .blocked ∧
      [Event.client .closed, .update opponentMove, .client .closed].all
        Event.isClosedOrPlainUpdate = true ∧
      (SpectateLoop acceptAll 0 spectate1
        ([.update opponentMove] ++
          [.client .closed, .update opponentMove, .client .closed])).outcome = .blocked ∧
      (SpectateLoop acceptAll 0 spectate1
        ([.update opponentMove] ++
          [.client .closed, .update opponentMove, .client .closed])).trace.filter
        Effect.isSpectatorLeave = [] ∧
      (PlayerLoop acceptAll 0 joinAs7
        ([.client (.msg moveE2E4)] ++ .client .closed :: [])).outcome = .returned ∧
      (PlayerLoop fullGames 0 joinAs7 [.client (.msg moveE2E4)]).outcome = .returned ∧
      (SpectateLoop fullGames 0 spectate1 []).outcome = .blocked ∧
      (SpectateLoop fullGames 0 spectate1
        ([] ++ [.client .closed, .update opponentMove, .client .closed])).outcome
        = .blocked ∧
      (SpectateLoop fullGames 0 spectate1
        ([] ++ [.client .closed, .update opponentMove, .client .closed])).trace.filter
        Effect.isSpectatorLeave = [] := by
  obtain ⟨hplayer, hspec⟩ :=
    C10_closed_inbound acceptAll 0 joinAs7 spectate1 [.client (.msg moveE2E4)]
      [.update opponentMove] [] [.client .closed, .update opponentMove, .client .closed]
  obtain ⟨_, _, _, hout, _⟩ := hplayer (by decide)
  obtain ⟨hblocked, hleave⟩ := (hspec (by decide)).2 (by decide)
  obtain ⟨hblocked2, hleave2⟩ :=
    ((C10_closed_inbound fullGames 0 joinAs7 spectate1 [.client (.msg moveE2E4)]
      [] [] [.client .closed, .update opponentMove, .client .closed]).2 (by decide)).2
      (by decide)
  exact ⟨by decide, by decide, by decide, hblocked, hleave, hout, by decide, by decide,
    hblocked2, hleave2⟩

end Concrete

end ChessServer
